import Mathlib

/-!
Verification of the package-lifecycle orchestration state machine of
`agent/plugins/configurepackage/configurepackage_execute.go`.

The orchestrator (`executeConfigurePackage`, `executeInstall`,
`executeUninstall`, `setNewInstallState`, `cleanupAfterUninstall`) is
embedded as pure Lean functions that return the chronological list of
observable effects of one top-level orchestration run:

* `Event.setState` — a `repository.SetInstallState` call (the write is
  recorded unconditionally: in the source a persistence error is only
  logged on the trace and never alters control flow);
* `Event.action`   — an installer action invocation
  (`Install` / `Update` / `Uninstall` / `Validate`);
* `Event.removePackage` — a `repository.RemovePackage` call
  (`cleanupAfterUninstall`);
* `Event.report`   — an outcome-reporter call (`MarkAsSucceeded`,
  `MarkAsSuccessWithReboot`, `MarkAsFailed`).

Installer handles are modelled with one fixed `ActionResult` per action
(`installRes`, `updateRes`, `uninstallRes`, `validateRes`): within one
modelled run each (handle, action) pair is invoked at most once, so this
determinism encodes exactly "the action invocations return these results".
Tracing (`tracer.BeginSection`, `WithExitcode`, `AppendInfof`, …) has no
effect on control flow, state writes, or the reported outcome, and is not
modelled.  Go `nil` installer arguments are modelled with `Option`; the
entry dispatcher returns `none` where the Go code would dereference a nil
installer.
-/

namespace ConfigurePackage

/-- The `localpackages.InstallState` enum (external; values as used by the
orchestrator source). -/
inductive InstallState where
  | None
  | Installing
  | Installed
  | Updating
  | Uninstalling
  | Upgrading
  | RollbackInstall
  | RollbackUninstall
  | Failed
deriving DecidableEq, Repr

/-- Modelled from the spec: the result status of an action invocation,
`contracts.ResultStatus` restricted to the three values the interface
contract names — success, failed, reboot-pending (the `contracts` package
is an external collaborator, not part of the shown source). -/
inductive ResultStatus where
  | Success
  | SuccessAndReboot
  | Failed
deriving DecidableEq, Repr

/-- Modelled from the spec: `status.IsSuccess()` — reboot-pending is a
deferred-completion signal, not a failure. -/
def ResultStatus.IsSuccess : ResultStatus → Bool
  | .Failed => false
  | _ => true

/-- Modelled from the spec: `status.IsReboot()`. -/
def ResultStatus.IsReboot : ResultStatus → Bool
  | .SuccessAndReboot => true
  | _ => false

/-- The result of one action invocation: status, numeric exit code and the
action's own captured stderr.  The orchestrator reads only the status; the
exit code is used for tracing alone and the result's stderr is never read
(the one stderr inspection in the source reads the accumulated plugin
output's stderr instead). -/
structure ActionResult where
  status : ResultStatus
  exitCode : Int
  stderr : String
deriving DecidableEq, Repr

/-- An `installer.Installer` handle: package name, version, and the result
each of its four actions would return when invoked in this run. -/
structure Installer where
  packageName : String
  version : String
  installRes : ActionResult
  updateRes : ActionResult
  uninstallRes : ActionResult
  validateRes : ActionResult
deriving DecidableEq, Repr

/-- Which installer action an `Event.action` records. -/
inductive ActionKind where
  | install
  | update
  | uninstall
  | validate
deriving DecidableEq, Repr

/-- The terminal disposition passed to the outcome reporter. -/
inductive Report where
  | succeeded
  | succeededWithReboot
  | failed
deriving DecidableEq, Repr

/-- One observable effect of an orchestration run, in chronological order. -/
inductive Event where
  | setState (packageName version : String) (st : InstallState)
  | action (packageName version : String) (kind : ActionKind)
  | removePackage (packageName version : String)
  | report (r : Report)
deriving DecidableEq, Repr

/-- Go `strings.Contains s pattern`: some index of `s` starts an occurrence of
`pattern` (the empty pattern is contained in every string, as in Go). -/
def stringsContains (s pattern : String) : Bool :=
  (List.range (s.length + 1)).any fun i =>
    (s.toList.drop i).take pattern.length = pattern.toList

/-- The literal substring tested at line 116 of the source. -/
def missingUpdateScriptMsg : String := "missing update script"

/-! ## Observations of a run -/

/-- The outcome-reporter calls of a run, in order. -/
def reportsOf (l : List Event) : List Report :=
  l.filterMap fun e =>
    match e with
    | .report r => some r
    | _ => none

/-- The `SetInstallState` writes of a run, in order. -/
def writesOf (l : List Event) : List (String × String × InstallState) :=
  l.filterMap fun e =>
    match e with
    | .setState n v s => some (n, v, s)
    | _ => none

/-- The installer-action invocations of a run, in order. -/
def actionsOf (l : List Event) : List (String × String × ActionKind) :=
  l.filterMap fun e =>
    match e with
    | .action n v k => some (n, v, k)
    | _ => none

/-- The `RemovePackage` (cleanup) calls of a run, in order. -/
def cleanupsOf (l : List Event) : List (String × String) :=
  l.filterMap fun e =>
    match e with
    | .removePackage n v => some (n, v)
    | _ => none

/-- The chronologically last `SetInstallState` write of a run. -/
def lastWrite (l : List Event) : Option (String × String × InstallState) :=
  (writesOf l).getLast?

/-- Whether an event is an outcome-reporter call. -/
def Event.isReport : Event → Bool
  | .report _ => true
  | _ => false

/-- The `SetInstallState` writes that precede the first outcome-reporter
call of a run. -/
def writesBeforeFirstReport (l : List Event) : List (String × String × InstallState) :=
  writesOf (l.takeWhile fun e => !e.isReport)

/-- The chronologically last write that precedes the first outcome-reporter
call. -/
def lastWriteBeforeFirstReport (l : List Event) : Option (String × String × InstallState) :=
  (writesBeforeFirstReport l).getLast?

/-- The in-progress (non-terminal) `InstallState` markers. -/
def isInProgress : InstallState → Bool
  | .Installing | .Updating | .Uninstalling | .Upgrading
  | .RollbackInstall | .RollbackUninstall => true
  | _ => false

/-! ## The orchestrator -/

/-- Source function `setNewInstallState` (lines 62–70): one repository write; a
repository error is only traced, so the write event is recorded
unconditionally. -/
def setNewInstallState (inst : Installer) (newInstallState : InstallState) : List Event :=
  [Event.setState inst.packageName inst.version newInstallState]

/-- Source function `cleanupAfterUninstall` (lines 207–215): one `RemovePackage`
call; an error is only traced. -/
def cleanupAfterUninstall (uninst : Installer) : List Event :=
  [Event.removePackage uninst.packageName uninst.version]

/-- The state persisted at the head of `executeInstall` (source lines
88–97): `RollbackInstall` if rolling back, else `Updating` for an in-place
update, else `Installing`. -/
def installHeadState (isUpdateInPlace isRollback : Bool) : InstallState :=
  if isRollback then InstallState.RollbackInstall
  else if isUpdateInPlace then InstallState.Updating
  else InstallState.Installing

/-- The action `executeInstall` invokes on its target (source lines 88–97):
`Install` when rolling back, else `Update` for an in-place update, else
`Install`. -/
def installAction (isUpdateInPlace isRollback : Bool) : ActionKind :=
  if isRollback then ActionKind.install
  else if isUpdateInPlace then ActionKind.update
  else ActionKind.install

/-- The result of the action `executeInstall` invokes on its target
(same branch as `installHeadState` / `installAction`). -/
def installActionResult (inst : Installer) (isUpdateInPlace isRollback : Bool) : ActionResult :=
  if isRollback then inst.installRes
  else if isUpdateInPlace then inst.updateRes
  else inst.installRes

/-- Source lines 101–105: when the action result's status is exactly
`Success`, `Validate` is invoked and its result becomes authoritative. -/
def afterValidate (inst : Installer) (res : ActionResult) : ActionResult :=
  if res.status = ResultStatus.Success then inst.validateRes else res

/-- The events `executeInstall` emits before branching on the outcome
(source lines 88–105): the head state write, the install/update action,
and the validate action when the action result's status was `Success`. -/
def installHead (inst : Installer) (isUpdateInPlace isRollback : Bool) : List Event :=
  setNewInstallState inst (installHeadState isUpdateInPlace isRollback) ++
  [Event.action inst.packageName inst.version (installAction isUpdateInPlace isRollback)] ++
  (if (installActionResult inst isUpdateInPlace isRollback).status = ResultStatus.Success then
    [Event.action inst.packageName inst.version ActionKind.validate]
  else [])

/-- Source lines 134–137: cleanup is invoked on the superseded version
when one exists (`if uninst != nil`). -/
def maybeCleanup (uninst : Option Installer) : List Event :=
  match uninst with
  | some u => cleanupAfterUninstall u
  | none => []

/-- The state persisted at the head of `executeUninstall` (source lines
164–174): `RollbackUninstall` if rolling back, else `Upgrading` when a
version to reinstall exists (legacy update), else `Uninstalling`. -/
def uninstallHeadState (inst : Option Installer) (isRollback : Bool) : InstallState :=
  if isRollback then InstallState.RollbackUninstall
  else match inst with
    | some _ => InstallState.Upgrading
    | none => InstallState.Uninstalling

/-- The events `executeUninstall` emits before branching on the outcome
(source lines 164–177): the head state write, then the `Uninstall` action
on `uninst`. -/
def uninstallHead (inst : Option Installer) (uninst : Installer) (isRollback : Bool) : List Event :=
  setNewInstallState uninst (uninstallHeadState inst isRollback) ++
  [Event.action uninst.packageName uninst.version ActionKind.uninstall]

mutual

/-- Source function `executeInstall` (lines 73–148).  `inst` is the version being
installed, `uninst` the version to clean up on success or restore on
failure (nilable).  The guard `isRollback || uninst == nil` of line 123 is
written as a two-discriminant match so that the bounded-rollback
termination argument is syntactic. -/
def executeInstall (inst : Installer) (uninst : Option Installer)
    (isUpdateInPlace isRollback : Bool) (outputStderr : String) : List Event :=
  installHead inst isUpdateInPlace isRollback ++
  (if (afterValidate inst (installActionResult inst isUpdateInPlace isRollback)).status.IsReboot then
     [Event.report Report.succeededWithReboot]
   else if !(afterValidate inst (installActionResult inst isUpdateInPlace isRollback)).status.IsSuccess then
     if isUpdateInPlace && stringsContains outputStderr missingUpdateScriptMsg then
       setNewInstallState inst InstallState.Installed ++ [Event.report Report.failed]
     else
       match isRollback, uninst with
       | true, _ =>
         [Event.report Report.failed] ++ setNewInstallState inst InstallState.Failed
       | false, none =>
         [Event.report Report.failed] ++ setNewInstallState inst InstallState.Failed
       | false, some u =>
         executeUninstall (some u) inst isUpdateInPlace true outputStderr
   else
     maybeCleanup uninst ++
     (if isRollback then
       setNewInstallState inst InstallState.Installed ++ [Event.report Report.failed]
     else
       setNewInstallState inst InstallState.Installed ++ [Event.report Report.succeeded]))
termination_by (if isRollback then 0 else 2 : Nat)
decreasing_by simp_all

/-- Source function `executeUninstall` (lines 151–204).  `uninst` is the version
being removed, `inst` a version to reinstall afterwards (nilable). -/
def executeUninstall (inst : Option Installer) (uninst : Installer)
    (isUpdateInPlace isRollback : Bool) (outputStderr : String) : List Event :=
  uninstallHead inst uninst isRollback ++
  (if !uninst.uninstallRes.status.IsSuccess then
     match inst with
     | some i => executeInstall i (some uninst) isUpdateInPlace isRollback outputStderr
     | none =>
       setNewInstallState uninst InstallState.Failed ++ [Event.report Report.failed]
   else if uninst.uninstallRes.status.IsReboot then
     [Event.report Report.succeededWithReboot]
   else
     match inst with
     | some i => executeInstall i (some uninst) isUpdateInPlace isRollback outputStderr
     | none =>
       cleanupAfterUninstall uninst ++ setNewInstallState uninst InstallState.None ++
         [Event.report Report.succeeded])
termination_by (if isRollback then 1 else 3 : Nat)
decreasing_by all_goals cases isRollback <;> simp_all

end

/-- Source function `executeConfigurePackage` (lines 31–59): the entry dispatcher.
`none` is returned exactly where the Go code would dereference a nil
installer handle. -/
def executeConfigurePackage (inst uninst : Option Installer) (isUpdateInPlace : Bool)
    (initialInstallState : InstallState) (outputStderr : String) : Option (List Event) :=
  match initialInstallState with
  | .Installing | .Updating =>
    inst.map fun i => executeInstall i uninst isUpdateInPlace false outputStderr
  | .RollbackInstall =>
    uninst.map fun u => executeInstall u inst isUpdateInPlace true outputStderr
  | .RollbackUninstall =>
    inst.map fun i => executeUninstall uninst i isUpdateInPlace true outputStderr
  | _ =>
    if uninst.isSome && !isUpdateInPlace then
      match uninst with
      | some u => some (executeUninstall inst u isUpdateInPlace false outputStderr)
      | none => none
    else
      inst.map fun i => executeInstall i uninst isUpdateInPlace false outputStderr

/-! ## Derived notions and concrete fixtures -/

/-- An installer action event for the `Uninstall` action. -/
def isUninstallEvent : Event → Bool
  | .action _ _ .uninstall => true
  | _ => false

/-- An installer action event for the `Install` or `Update` action. -/
def isInstallOrUpdateEvent : Event → Bool
  | .action _ _ .install => true
  | .action _ _ .update => true
  | _ => false

/-- How many `Uninstall` actions a run invoked — one per entry into
`executeUninstall`, since the sub-procedure invokes `Uninstall` exactly
once before branching. -/
def uninstallInvocations (l : List Event) : Nat :=
  l.countP isUninstallEvent

/-- How many `Install`/`Update` actions a run invoked — one per entry into
`executeInstall`. -/
def installOrUpdateInvocations (l : List Event) : Nat :=
  l.countP isInstallOrUpdateEvent

/-- The run's chronologically last repository write is one of the terminal
states `Installed`, `None`, `Failed`. -/
def endsInTerminalWrite (l : List Event) : Prop :=
  ∃ n v s, lastWrite l = some (n, v, s) ∧
    (s = InstallState.Installed ∨ s = InstallState.None ∨ s = InstallState.Failed)

/-- Every frame of the orchestrator either ends in a terminal write or
reports success-with-reboot. -/
def terminalOrReboot (l : List Event) : Prop :=
  endsInTerminalWrite l ∨ reportsOf l = [Report.succeededWithReboot]

/-- Holds when `l` is the run `sub` preceded by events `pre` that contain no
outcome-reporter call: resuming at `sub` replays the remainder of `l`
exactly. -/
def resumesTo (l sub : List Event) : Prop :=
  ∃ pre, l = pre ++ sub ∧ reportsOf pre = []

/-- An action result with the given status (exit code 0, empty stderr). -/
def mkResult (s : ResultStatus) : ActionResult := ⟨s, 0, ""⟩

/-- A concrete installer fixture: name, version and the statuses of its
install / update / uninstall / validate actions. -/
def mkInstaller (n v : String) (i u un va : ResultStatus) : Installer :=
  ⟨n, v, mkResult i, mkResult u, mkResult un, mkResult va⟩

/-! ## Algebra of the observation functions -/

@[simp] theorem reportsOf_nil : reportsOf [] = [] := rfl

@[simp] theorem reportsOf_cons_setState (n v : String) (s : InstallState) (l : List Event) :
    reportsOf (Event.setState n v s :: l) = reportsOf l := rfl

@[simp] theorem reportsOf_cons_action (n v : String) (k : ActionKind) (l : List Event) :
    reportsOf (Event.action n v k :: l) = reportsOf l := rfl

@[simp] theorem reportsOf_cons_removePackage (n v : String) (l : List Event) :
    reportsOf (Event.removePackage n v :: l) = reportsOf l := rfl

@[simp] theorem reportsOf_cons_report (r : Report) (l : List Event) :
    reportsOf (Event.report r :: l) = r :: reportsOf l := rfl

@[simp] theorem reportsOf_append (a b : List Event) :
    reportsOf (a ++ b) = reportsOf a ++ reportsOf b := by
  simp [reportsOf]

@[simp] theorem writesOf_nil : writesOf [] = [] := rfl

@[simp] theorem writesOf_cons_setState (n v : String) (s : InstallState) (l : List Event) :
    writesOf (Event.setState n v s :: l) = (n, v, s) :: writesOf l := rfl

@[simp] theorem writesOf_cons_action (n v : String) (k : ActionKind) (l : List Event) :
    writesOf (Event.action n v k :: l) = writesOf l := rfl

@[simp] theorem writesOf_cons_removePackage (n v : String) (l : List Event) :
    writesOf (Event.removePackage n v :: l) = writesOf l := rfl

@[simp] theorem writesOf_cons_report (r : Report) (l : List Event) :
    writesOf (Event.report r :: l) = writesOf l := rfl

@[simp] theorem writesOf_append (a b : List Event) :
    writesOf (a ++ b) = writesOf a ++ writesOf b := by
  simp [writesOf]

@[simp] theorem actionsOf_nil : actionsOf [] = [] := rfl

@[simp] theorem actionsOf_cons_setState (n v : String) (s : InstallState) (l : List Event) :
    actionsOf (Event.setState n v s :: l) = actionsOf l := rfl

@[simp] theorem actionsOf_cons_action (n v : String) (k : ActionKind) (l : List Event) :
    actionsOf (Event.action n v k :: l) = (n, v, k) :: actionsOf l := rfl

@[simp] theorem actionsOf_cons_removePackage (n v : String) (l : List Event) :
    actionsOf (Event.removePackage n v :: l) = actionsOf l := rfl

@[simp] theorem actionsOf_cons_report (r : Report) (l : List Event) :
    actionsOf (Event.report r :: l) = actionsOf l := rfl

@[simp] theorem actionsOf_append (a b : List Event) :
    actionsOf (a ++ b) = actionsOf a ++ actionsOf b := by
  simp [actionsOf]

@[simp] theorem cleanupsOf_nil : cleanupsOf [] = [] := rfl

@[simp] theorem cleanupsOf_cons_setState (n v : String) (s : InstallState) (l : List Event) :
    cleanupsOf (Event.setState n v s :: l) = cleanupsOf l := rfl

@[simp] theorem cleanupsOf_cons_action (n v : String) (k : ActionKind) (l : List Event) :
    cleanupsOf (Event.action n v k :: l) = cleanupsOf l := rfl

@[simp] theorem cleanupsOf_cons_removePackage (n v : String) (l : List Event) :
    cleanupsOf (Event.removePackage n v :: l) = (n, v) :: cleanupsOf l := rfl

@[simp] theorem cleanupsOf_cons_report (r : Report) (l : List Event) :
    cleanupsOf (Event.report r :: l) = cleanupsOf l := rfl

@[simp] theorem cleanupsOf_append (a b : List Event) :
    cleanupsOf (a ++ b) = cleanupsOf a ++ cleanupsOf b := by
  simp [cleanupsOf]

@[simp] theorem reportsOf_setNewInstallState (i : Installer) (s : InstallState) :
    reportsOf (setNewInstallState i s) = [] := rfl

@[simp] theorem writesOf_setNewInstallState (i : Installer) (s : InstallState) :
    writesOf (setNewInstallState i s) = [(i.packageName, i.version, s)] := rfl

@[simp] theorem actionsOf_setNewInstallState (i : Installer) (s : InstallState) :
    actionsOf (setNewInstallState i s) = [] := rfl

@[simp] theorem cleanupsOf_setNewInstallState (i : Installer) (s : InstallState) :
    cleanupsOf (setNewInstallState i s) = [] := rfl

@[simp] theorem reportsOf_cleanupAfterUninstall (u : Installer) :
    reportsOf (cleanupAfterUninstall u) = [] := rfl

@[simp] theorem writesOf_cleanupAfterUninstall (u : Installer) :
    writesOf (cleanupAfterUninstall u) = [] := rfl

@[simp] theorem actionsOf_cleanupAfterUninstall (u : Installer) :
    actionsOf (cleanupAfterUninstall u) = [] := rfl

@[simp] theorem cleanupsOf_cleanupAfterUninstall (u : Installer) :
    cleanupsOf (cleanupAfterUninstall u) = [(u.packageName, u.version)] := rfl

@[simp] theorem reportsOf_maybeCleanup (u : Option Installer) :
    reportsOf (maybeCleanup u) = [] := by
  cases u <;> rfl

@[simp] theorem writesOf_maybeCleanup (u : Option Installer) :
    writesOf (maybeCleanup u) = [] := by
  cases u <;> rfl

@[simp] theorem actionsOf_maybeCleanup (u : Option Installer) :
    actionsOf (maybeCleanup u) = [] := by
  cases u <;> rfl

@[simp] theorem reportsOf_installHead (i : Installer) (p r : Bool) :
    reportsOf (installHead i p r) = [] := by
  rw [installHead] ; split <;> rfl

@[simp] theorem writesOf_installHead (i : Installer) (p r : Bool) :
    writesOf (installHead i p r) = [(i.packageName, i.version, installHeadState p r)] := by
  rw [installHead] ; split <;> rfl

@[simp] theorem cleanupsOf_installHead (i : Installer) (p r : Bool) :
    cleanupsOf (installHead i p r) = [] := by
  rw [installHead] ; split <;> rfl

@[simp] theorem reportsOf_uninstallHead (i : Option Installer) (u : Installer) (r : Bool) :
    reportsOf (uninstallHead i u r) = [] := rfl

@[simp] theorem writesOf_uninstallHead (i : Option Installer) (u : Installer) (r : Bool) :
    writesOf (uninstallHead i u r) = [(u.packageName, u.version, uninstallHeadState i r)] := rfl

@[simp] theorem cleanupsOf_uninstallHead (i : Option Installer) (u : Installer) (r : Bool) :
    cleanupsOf (uninstallHead i u r) = [] := rfl

@[simp] theorem actionsOf_uninstallHead (i : Option Installer) (u : Installer) (r : Bool) :
    actionsOf (uninstallHead i u r) = [(u.packageName, u.version, ActionKind.uninstall)] := rfl

theorem actionsOf_installHead (i : Installer) (p r : Bool) :
    actionsOf (installHead i p r) =
      (i.packageName, i.version, installAction p r) ::
      (if (installActionResult i p r).status = ResultStatus.Success then
        [(i.packageName, i.version, ActionKind.validate)]
      else []) := by
  rw [installHead] ; split <;> rfl

/-! ## Per-frame facts, layered by the bounded rollback recursion

The recursion of the two sub-procedures is linear:
`executeUninstall rollback:=false` tail-calls `executeInstall rollback:=false`,
which tail-calls `executeUninstall rollback:=true`, which tail-calls
`executeInstall rollback:=true`, which never recurses.  Facts about whole
runs are therefore proved in four layers, innermost first. -/

theorem reports_length_executeInstall_true (inst : Installer) (uninst : Option Installer)
    (p : Bool) (σ : String) :
    (reportsOf (executeInstall inst uninst p true σ)).length = 1 := by
  rw [executeInstall.eq_def]
  simp only [reportsOf_append, reportsOf_installHead, List.nil_append]
  repeat' split
  all_goals simp

theorem reports_length_executeUninstall_aux (inst : Option Installer) (uninst : Installer)
    (p r : Bool) (σ : String)
    (ih : ∀ i u', (reportsOf (executeInstall i u' p r σ)).length = 1) :
    (reportsOf (executeUninstall inst uninst p r σ)).length = 1 := by
  rw [executeUninstall.eq_def]
  simp only [reportsOf_append, reportsOf_uninstallHead, List.nil_append]
  repeat' split
  all_goals first | simp | exact ih _ _

theorem reports_length_executeInstall_false (inst : Installer) (uninst : Option Installer)
    (p : Bool) (σ : String) :
    (reportsOf (executeInstall inst uninst p false σ)).length = 1 := by
  rw [executeInstall.eq_def]
  simp only [reportsOf_append, reportsOf_installHead, List.nil_append]
  repeat' split
  all_goals first
    | simp
    | exact reports_length_executeUninstall_aux _ _ _ _ _
        (fun i u' => reports_length_executeInstall_true i u' p σ)

theorem reports_length_executeInstall (inst : Installer) (uninst : Option Installer)
    (p r : Bool) (σ : String) :
    (reportsOf (executeInstall inst uninst p r σ)).length = 1 := by
  cases r
  · exact reports_length_executeInstall_false inst uninst p σ
  · exact reports_length_executeInstall_true inst uninst p σ

theorem reports_length_executeUninstall (inst : Option Installer) (uninst : Installer)
    (p r : Bool) (σ : String) :
    (reportsOf (executeUninstall inst uninst p r σ)).length = 1 := by
  exact reports_length_executeUninstall_aux inst uninst p r σ
    (fun i u' => reports_length_executeInstall i u' p r σ)

/-- Evaluation helper: the tested pattern occurs in itself. -/
theorem stringsContains_self :
    stringsContains missingUpdateScriptMsg missingUpdateScriptMsg = true := by decide

/-- Evaluation helper: the empty accumulated stderr does not contain the
pattern. -/
theorem stringsContains_nil : stringsContains "" missingUpdateScriptMsg = false := by decide

/-! ## Claim C7 -/

/-- Claim C7: every top-level orchestration call (that does not fault on a nil
installer handle) invokes exactly one of `markSucceeded`,
`markSucceededWithReboot`, `markFailed`, and invokes it exactly once, on
every control-flow path including all recursive rollback/continuation
chains. -/
theorem C7_exactly_one_reporter_call (inst uninst : Option Installer) (isUpdateInPlace : Bool)
    (st : InstallState) (σ : String) (l : List Event)
    (h : executeConfigurePackage inst uninst isUpdateInPlace st σ = some l) :
    (reportsOf l).length = 1 := by
  cases st <;> cases inst <;> cases uninst <;> cases isUpdateInPlace <;>
    simp only [executeConfigurePackage, Option.map, Option.isSome] at h <;>
    (try simp at h) <;>
    (try subst h) <;>
    first
      | exact reports_length_executeInstall _ _ _ _ _
      | exact reports_length_executeUninstall _ _ _ _ _

/-- Witness for C7 at a concrete input: a plain successful install run. -/
theorem C7_witness :
    (reportsOf (executeInstall (mkInstaller "pkgA" "1.0"
      ResultStatus.Success ResultStatus.Success ResultStatus.Success ResultStatus.Success)
      none false false "")).length = 1 :=
  C7_exactly_one_reporter_call
    (some (mkInstaller "pkgA" "1.0"
      ResultStatus.Success ResultStatus.Success ResultStatus.Success ResultStatus.Success))
    none false InstallState.None "" _ rfl

/-! ## Claim C9: bounded rollback recursion -/

@[simp] theorem uninstallInvocations_nil : uninstallInvocations [] = 0 := rfl

@[simp] theorem uninstallInvocations_append (a b : List Event) :
    uninstallInvocations (a ++ b) = uninstallInvocations a + uninstallInvocations b :=
  List.countP_append _ _ _

@[simp] theorem installOrUpdateInvocations_nil : installOrUpdateInvocations [] = 0 := rfl

@[simp] theorem installOrUpdateInvocations_append (a b : List Event) :
    installOrUpdateInvocations (a ++ b) =
      installOrUpdateInvocations a + installOrUpdateInvocations b :=
  List.countP_append _ _ _

@[simp] theorem uninstallInvocations_installHead (i : Installer) (p r : Bool) :
    uninstallInvocations (installHead i p r) = 0 := by
  rw [installHead] ; cases p <;> cases r <;> split <;> rfl

@[simp] theorem installOrUpdateInvocations_installHead (i : Installer) (p r : Bool) :
    installOrUpdateInvocations (installHead i p r) = 1 := by
  rw [installHead] ; cases p <;> cases r <;> split <;> rfl

@[simp] theorem uninstallInvocations_uninstallHead (i : Option Installer) (u : Installer)
    (r : Bool) :
    uninstallInvocations (uninstallHead i u r) = 1 := rfl

@[simp] theorem installOrUpdateInvocations_uninstallHead (i : Option Installer) (u : Installer)
    (r : Bool) :
    installOrUpdateInvocations (uninstallHead i u r) = 0 := rfl

@[simp] theorem uninstallInvocations_setNewInstallState (i : Installer) (s : InstallState) :
    uninstallInvocations (setNewInstallState i s) = 0 := rfl

@[simp] theorem installOrUpdateInvocations_setNewInstallState (i : Installer) (s : InstallState) :
    installOrUpdateInvocations (setNewInstallState i s) = 0 := rfl

@[simp] theorem uninstallInvocations_maybeCleanup (u : Option Installer) :
    uninstallInvocations (maybeCleanup u) = 0 := by cases u <;> rfl

@[simp] theorem installOrUpdateInvocations_maybeCleanup (u : Option Installer) :
    installOrUpdateInvocations (maybeCleanup u) = 0 := by cases u <;> rfl

@[simp] theorem uninstallInvocations_report (r : Report) :
    uninstallInvocations [Event.report r] = 0 := rfl

@[simp] theorem uninstallInvocations_cons_report (r : Report) (l : List Event) :
    uninstallInvocations (Event.report r :: l) = uninstallInvocations l := by
  simp [uninstallInvocations, List.countP_cons, isUninstallEvent]

@[simp] theorem installOrUpdateInvocations_cons_report (r : Report) (l : List Event) :
    installOrUpdateInvocations (Event.report r :: l) = installOrUpdateInvocations l := by
  simp [installOrUpdateInvocations, List.countP_cons, isInstallOrUpdateEvent]

@[simp] theorem installOrUpdateInvocations_report (r : Report) :
    installOrUpdateInvocations [Event.report r] = 0 := rfl

@[simp] theorem uninstallInvocations_cleanupAfterUninstall (u : Installer) :
    uninstallInvocations (cleanupAfterUninstall u) = 0 := rfl

@[simp] theorem installOrUpdateInvocations_cleanupAfterUninstall (u : Installer) :
    installOrUpdateInvocations (cleanupAfterUninstall u) = 0 := rfl

theorem uninst_count_executeInstall_true (inst : Installer) (uninst : Option Installer)
    (p : Bool) (σ : String) :
    uninstallInvocations (executeInstall inst uninst p true σ) = 0 := by
  rw [executeInstall.eq_def]
  simp only [uninstallInvocations_append, uninstallInvocations_installHead, Nat.zero_add]
  repeat' split
  all_goals simp

theorem instUpd_count_executeInstall_true (inst : Installer) (uninst : Option Installer)
    (p : Bool) (σ : String) :
    installOrUpdateInvocations (executeInstall inst uninst p true σ) = 1 := by
  rw [executeInstall.eq_def]
  simp only [installOrUpdateInvocations_append, installOrUpdateInvocations_installHead]
  repeat' split
  all_goals simp

theorem uninst_count_executeUninstall_true (inst : Option Installer) (uninst : Installer)
    (p : Bool) (σ : String) :
    uninstallInvocations (executeUninstall inst uninst p true σ) = 1 := by
  rw [executeUninstall.eq_def]
  simp only [uninstallInvocations_append, uninstallInvocations_uninstallHead]
  repeat' split
  all_goals simp [uninst_count_executeInstall_true]

theorem instUpd_count_executeUninstall_true (inst : Option Installer) (uninst : Installer)
    (p : Bool) (σ : String) :
    installOrUpdateInvocations (executeUninstall inst uninst p true σ) ≤ 1 := by
  rw [executeUninstall.eq_def]
  simp only [installOrUpdateInvocations_append, installOrUpdateInvocations_uninstallHead,
    Nat.zero_add]
  repeat' split
  all_goals simp [instUpd_count_executeInstall_true]

theorem uninst_count_executeInstall_false (inst : Installer) (uninst : Option Installer)
    (p : Bool) (σ : String) :
    uninstallInvocations (executeInstall inst uninst p false σ) ≤ 1 := by
  rw [executeInstall.eq_def]
  simp only [uninstallInvocations_append, uninstallInvocations_installHead, Nat.zero_add]
  repeat' split
  all_goals simp [uninst_count_executeUninstall_true]

theorem instUpd_count_executeInstall_false (inst : Installer) (uninst : Option Installer)
    (p : Bool) (σ : String) :
    installOrUpdateInvocations (executeInstall inst uninst p false σ) ≤ 2 := by
  rw [executeInstall.eq_def]
  simp only [installOrUpdateInvocations_append, installOrUpdateInvocations_installHead]
  repeat' split
  all_goals first
    | simp
    | exact Nat.add_le_add_left (instUpd_count_executeUninstall_true _ _ _ _) 1

theorem uninst_count_executeUninstall_false (inst : Option Installer) (uninst : Installer)
    (p : Bool) (σ : String) :
    uninstallInvocations (executeUninstall inst uninst p false σ) ≤ 2 := by
  rw [executeUninstall.eq_def]
  simp only [uninstallInvocations_append, uninstallInvocations_uninstallHead]
  repeat' split
  all_goals first
    | simp
    | exact Nat.add_le_add_left (uninst_count_executeInstall_false _ _ _ _) 1

theorem instUpd_count_executeUninstall_false (inst : Option Installer) (uninst : Installer)
    (p : Bool) (σ : String) :
    installOrUpdateInvocations (executeUninstall inst uninst p false σ) ≤ 2 := by
  rw [executeUninstall.eq_def]
  simp only [installOrUpdateInvocations_append, installOrUpdateInvocations_uninstallHead,
    Nat.zero_add]
  repeat' split
  all_goals first
    | simp
    | exact instUpd_count_executeInstall_false _ _ _ _

theorem counts_executeInstall_le (inst : Installer) (uninst : Option Installer)
    (p r : Bool) (σ : String) :
    uninstallInvocations (executeInstall inst uninst p r σ) ≤ 2 ∧
      installOrUpdateInvocations (executeInstall inst uninst p r σ) ≤ 2 := by
  cases r
  · exact ⟨Nat.le_trans (uninst_count_executeInstall_false inst uninst p σ) (by omega),
      instUpd_count_executeInstall_false inst uninst p σ⟩
  · exact ⟨by simp [uninst_count_executeInstall_true],
      by simp [instUpd_count_executeInstall_true]⟩

theorem counts_executeUninstall_le (inst : Option Installer) (uninst : Installer)
    (p r : Bool) (σ : String) :
    uninstallInvocations (executeUninstall inst uninst p r σ) ≤ 2 ∧
      installOrUpdateInvocations (executeUninstall inst uninst p r σ) ≤ 2 := by
  cases r
  · exact ⟨uninst_count_executeUninstall_false inst uninst p σ,
      instUpd_count_executeUninstall_false inst uninst p σ⟩
  · exact ⟨by simp [uninst_count_executeUninstall_true],
      Nat.le_trans (instUpd_count_executeUninstall_true inst uninst p σ) (by omega)⟩

/-- Claim C9: every top-level orchestration call terminates — the two
sub-procedures are total Lean functions whose mutual recursion is
well-founded on the rollback flag (a rollback never starts a further
rollback, and `executeUninstall` passes its flag through unchanged) — and
the call chain is bounded by uninstall-path, install-path, uninstall-path,
install-path: since each `executeUninstall` entry invokes `Uninstall`
exactly once and each `executeInstall` entry invokes `Install`/`Update`
exactly once, no run contains more than two uninstall invocations and two
install/update invocations. -/
theorem C9_bounded_recursion (inst uninst : Option Installer) (isUpdateInPlace : Bool)
    (st : InstallState) (σ : String) (l : List Event)
    (h : executeConfigurePackage inst uninst isUpdateInPlace st σ = some l) :
    uninstallInvocations l ≤ 2 ∧ installOrUpdateInvocations l ≤ 2 := by
  cases st <;> cases inst <;> cases uninst <;> cases isUpdateInPlace <;>
    simp only [executeConfigurePackage, Option.map, Option.isSome] at h <;>
    (try simp at h) <;>
    (try subst h) <;>
    first
      | exact counts_executeInstall_le _ _ _ _ _
      | exact counts_executeUninstall_le _ _ _ _ _

/-- Witness for C9 at a concrete input: a legacy upgrade whose install
fails, driving the longest chain uninstall–install–uninstall–install. -/
theorem C9_witness :
    uninstallInvocations (executeUninstall
      (some (mkInstaller "pkgA" "2.0"
        ResultStatus.Failed ResultStatus.Failed ResultStatus.Success ResultStatus.Success))
      (mkInstaller "pkgA" "1.0"
        ResultStatus.Success ResultStatus.Success ResultStatus.Success ResultStatus.Success)
      false false "") ≤ 2 ∧
    installOrUpdateInvocations (executeUninstall
      (some (mkInstaller "pkgA" "2.0"
        ResultStatus.Failed ResultStatus.Failed ResultStatus.Success ResultStatus.Success))
      (mkInstaller "pkgA" "1.0"
        ResultStatus.Success ResultStatus.Success ResultStatus.Success ResultStatus.Success)
      false false "") ≤ 2 :=
  C9_bounded_recursion
    (some (mkInstaller "pkgA" "2.0"
      ResultStatus.Failed ResultStatus.Failed ResultStatus.Success ResultStatus.Success))
    (some (mkInstaller "pkgA" "1.0"
      ResultStatus.Success ResultStatus.Success ResultStatus.Success ResultStatus.Success))
    false InstallState.None "" _ rfl

/-! ## Claim C1: terminal final write -/

theorem endsInTerminalWrite_append (a sub : List Event) (h : endsInTerminalWrite sub) :
    endsInTerminalWrite (a ++ sub) := by
  obtain ⟨n, v, s, hw, hs⟩ := h
  refine ⟨n, v, s, ?_, hs⟩
  have hne : writesOf sub ≠ [] := by
    intro hnil
    rw [lastWrite, hnil] at hw
    exact absurd hw (by simp)
  simp only [lastWrite, writesOf_append]
  rw [List.getLast?_append_of_ne_nil _ hne]
  exact hw

theorem terminalOrReboot_of_tail (a T : List Event) (ha : reportsOf a = [])
    (h : terminalOrReboot T) : terminalOrReboot (a ++ T) := by
  rcases h with h | h
  · exact Or.inl (endsInTerminalWrite_append a T h)
  · exact Or.inr (by simp [ha, h])

@[simp] theorem getLast?_singleton_cp {α : Type _} (a : α) : [a].getLast? = some a := rfl

theorem terminalOrReboot_of_lastWrite (l : List Event) (n v : String) (s : InstallState)
    (hw : lastWrite l = some (n, v, s))
    (hs : s = InstallState.Installed ∨ s = InstallState.None ∨ s = InstallState.Failed) :
    terminalOrReboot l := Or.inl ⟨n, v, s, hw, hs⟩

theorem terminal_or_reboot_executeInstall_true (inst : Installer) (uninst : Option Installer)
    (p : Bool) (σ : String) :
    terminalOrReboot (executeInstall inst uninst p true σ) := by
  rw [executeInstall.eq_def]
  refine terminalOrReboot_of_tail _ _ (by simp) ?_
  repeat' split
  all_goals first
    | exact Or.inr rfl
    | (refine terminalOrReboot_of_lastWrite _ inst.packageName inst.version
        InstallState.Installed ?_ (by simp) ; simp [lastWrite] ; done)
    | (refine terminalOrReboot_of_lastWrite _ inst.packageName inst.version
        InstallState.Failed ?_ (by simp) ; simp [lastWrite] ; done)
    | (simp_all ; done)

theorem terminal_or_reboot_executeUninstall_aux (inst : Option Installer) (uninst : Installer)
    (p r : Bool) (σ : String)
    (ih : ∀ i u', terminalOrReboot (executeInstall i u' p r σ)) :
    terminalOrReboot (executeUninstall inst uninst p r σ) := by
  rw [executeUninstall.eq_def]
  refine terminalOrReboot_of_tail _ _ (by simp) ?_
  repeat' split
  all_goals first
    | exact Or.inr rfl
    | (refine terminalOrReboot_of_lastWrite _ uninst.packageName uninst.version
        InstallState.Failed ?_ (by simp) ; simp [lastWrite] ; done)
    | (refine terminalOrReboot_of_lastWrite _ uninst.packageName uninst.version
        InstallState.None ?_ (by simp) ; simp [lastWrite] ; done)
    | exact ih _ _

theorem terminal_or_reboot_executeInstall_false (inst : Installer) (uninst : Option Installer)
    (p : Bool) (σ : String) :
    terminalOrReboot (executeInstall inst uninst p false σ) := by
  rw [executeInstall.eq_def]
  refine terminalOrReboot_of_tail _ _ (by simp) ?_
  repeat' split
  all_goals first
    | exact Or.inr rfl
    | (refine terminalOrReboot_of_lastWrite _ inst.packageName inst.version
        InstallState.Installed ?_ (by simp) ; simp [lastWrite] ; done)
    | (refine terminalOrReboot_of_lastWrite _ inst.packageName inst.version
        InstallState.Failed ?_ (by simp) ; simp [lastWrite] ; done)
    | exact terminal_or_reboot_executeUninstall_aux _ _ _ _ _
        (fun i u' => terminal_or_reboot_executeInstall_true i u' p σ)

theorem terminal_or_reboot_executeInstall (inst : Installer) (uninst : Option Installer)
    (p r : Bool) (σ : String) :
    terminalOrReboot (executeInstall inst uninst p r σ) := by
  cases r
  · exact terminal_or_reboot_executeInstall_false inst uninst p σ
  · exact terminal_or_reboot_executeInstall_true inst uninst p σ

theorem terminal_or_reboot_executeUninstall (inst : Option Installer) (uninst : Installer)
    (p r : Bool) (σ : String) :
    terminalOrReboot (executeUninstall inst uninst p r σ) := by
  exact terminal_or_reboot_executeUninstall_aux inst uninst p r σ
    (fun i u' => terminal_or_reboot_executeInstall i u' p r σ)

/-- Claim C1, as stated, is false: on the install-failure hard stop (no
counterpart to roll back to), the source calls `output.MarkAsFailed` at
line 125 and only then writes `Failed` at line 127 — so the last
`InstallState` written before the outcome-reporter call is the in-progress
marker `Installing`.  Concrete input: target whose install fails, no
counterpart, not in-place, initial state `None`. -/
theorem C1_counterexample :
    ∃ l, executeConfigurePackage
        (some (mkInstaller "pkgA" "1.0"
          ResultStatus.Failed ResultStatus.Failed ResultStatus.Failed ResultStatus.Failed))
        none false InstallState.None "" = some l ∧
      reportsOf l = [Report.failed] ∧
      lastWriteBeforeFirstReport l = some ("pkgA", "1.0", InstallState.Installing) ∧
      isInProgress InstallState.Installing = true := by
  refine ⟨_, rfl, ?_, ?_, rfl⟩ <;>
    simp [executeInstall, installHead, installHeadState, installAction, installActionResult,
      afterValidate, setNewInstallState, mkInstaller, mkResult, ResultStatus.IsSuccess,
      ResultStatus.IsReboot, stringsContains_nil, lastWriteBeforeFirstReport,
      writesBeforeFirstReport, Event.isReport, lastWrite, writesOf, reportsOf]

/-- Claim C1 (amended): for every top-level orchestration run whose reported
outcome is not success-with-reboot, the last `InstallState` written to the
repository during the run is one of `Installed`, `None`, `Failed` — never
an in-progress marker.  (Amended from the claim only in that on the
install-failure hard stop the final `Failed` write happens just after the
reporter call, not before it; by the end of the run the last write is
terminal.) -/
theorem C1_terminal_last_write (inst uninst : Option Installer) (isUpdateInPlace : Bool)
    (st : InstallState) (σ : String) (l : List Event)
    (h : executeConfigurePackage inst uninst isUpdateInPlace st σ = some l)
    (hnr : Report.succeededWithReboot ∉ reportsOf l) :
    ∃ n v s, lastWrite l = some (n, v, s) ∧
      (s = InstallState.Installed ∨ s = InstallState.None ∨ s = InstallState.Failed) ∧
      isInProgress s = false := by
  have hor : terminalOrReboot l := by
    cases st <;> cases inst <;> cases uninst <;> cases isUpdateInPlace <;>
      simp only [executeConfigurePackage, Option.map, Option.isSome] at h <;>
      (try simp at h) <;>
      (try subst h) <;>
      first
        | exact terminal_or_reboot_executeInstall _ _ _ _ _
        | exact terminal_or_reboot_executeUninstall _ _ _ _ _
  have hterm : endsInTerminalWrite l := by
    rcases hor with h' | h'
    · exact h'
    · exact absurd (by simp [h'] : Report.succeededWithReboot ∈ reportsOf l) hnr
  obtain ⟨n, v, s, hw, hs⟩ := hterm
  refine ⟨n, v, s, hw, hs, ?_⟩
  rcases hs with rfl | rfl | rfl <;> rfl

/-- Witness for the amended C1 at a concrete input: the hard-stop failing
run ends with last write `Failed`. -/
theorem C1_witness :
    ∃ n v s, lastWrite (executeInstall (mkInstaller "pkgA" "1.0"
        ResultStatus.Failed ResultStatus.Failed ResultStatus.Failed ResultStatus.Failed)
        none false false "") = some (n, v, s) ∧
      (s = InstallState.Installed ∨ s = InstallState.None ∨ s = InstallState.Failed) ∧
      isInProgress s = false :=
  C1_terminal_last_write
    (some (mkInstaller "pkgA" "1.0"
      ResultStatus.Failed ResultStatus.Failed ResultStatus.Failed ResultStatus.Failed))
    none false InstallState.None "" _ rfl
    (by simp [executeInstall, installHead, installHeadState, installAction, installActionResult,
      afterValidate, setNewInstallState, mkInstaller, mkResult, ResultStatus.IsSuccess,
      ResultStatus.IsReboot, stringsContains_nil, reportsOf])

/-! ## Claim C2: idempotent resumption

Every in-progress write happens as the first event of the sub-procedure
frame that owns it, and all frames are tail calls: the events from that
write onwards are exactly the log of the owning frame run standalone.  The
lemmas below decompose a run at each in-progress write (`resumesTo`), layer
by layer along the bounded rollback recursion. -/

theorem resumesTo_self (l : List Event) : resumesTo l l := ⟨[], rfl, rfl⟩

theorem resumesTo_append (a sub : List Event) (ha : reportsOf a = []) :
    resumesTo (a ++ sub) sub := ⟨a, rfl, ha⟩

theorem resumesTo_trans {l m sub : List Event} (h1 : resumesTo l m) (h2 : resumesTo m sub) :
    resumesTo l sub := by
  obtain ⟨p1, rfl, hp1⟩ := h1
  obtain ⟨p2, rfl, hp2⟩ := h2
  exact ⟨p1 ++ p2, by simp, by simp [hp1, hp2]⟩

theorem reportsOf_of_resumesTo {l sub : List Event} (h : resumesTo l sub) :
    reportsOf l = reportsOf sub := by
  obtain ⟨pre, rfl, hp⟩ := h
  simp [hp]

theorem lastWrite_of_resumesTo {l sub : List Event} (h : resumesTo l sub)
    (hne : writesOf sub ≠ []) : lastWrite l = lastWrite sub := by
  obtain ⟨pre, rfl, hp⟩ := h
  simp only [lastWrite, writesOf_append]
  exact List.getLast?_append_of_ne_nil _ hne

theorem writesOf_executeInstall_ne_nil (i : Installer) (u : Option Installer) (p r : Bool)
    (σ : String) : writesOf (executeInstall i u p r σ) ≠ [] := by
  rw [executeInstall.eq_def]
  simp

theorem writesOf_executeUninstall_ne_nil (i : Option Installer) (u : Installer) (p r : Bool)
    (σ : String) : writesOf (executeUninstall i u p r σ) ≠ [] := by
  rw [executeUninstall.eq_def]
  simp

@[simp] theorem setState_mem_maybeCleanup (n v : String) (S : InstallState)
    (u : Option Installer) : (Event.setState n v S ∈ maybeCleanup u) ↔ False := by
  cases u <;> simp [maybeCleanup, cleanupAfterUninstall]

@[simp] theorem setState_mem_installHead (n v : String) (S : InstallState) (i : Installer)
    (p r : Bool) :
    (Event.setState n v S ∈ installHead i p r) ↔
      n = i.packageName ∧ v = i.version ∧ S = installHeadState p r := by
  rw [installHead] ; split <;> simp [setNewInstallState]

@[simp] theorem setState_mem_uninstallHead (n v : String) (S : InstallState)
    (i : Option Installer) (u : Installer) (r : Bool) :
    (Event.setState n v S ∈ uninstallHead i u r) ↔
      n = u.packageName ∧ v = u.version ∧ S = uninstallHeadState i r := by
  simp [uninstallHead, setNewInstallState]

/-- Write inventory of a rollback install frame (layer 1: no recursion). -/
theorem setState_mem_executeInstall_true (i : Installer) (u : Option Installer) (p : Bool)
    (σ : String) {n v : String} {S : InstallState}
    (hmem : Event.setState n v S ∈ executeInstall i u p true σ) :
    S = InstallState.RollbackInstall ∨ S = InstallState.Installed ∨ S = InstallState.Failed := by
  rw [executeInstall.eq_def] at hmem
  repeat' split at hmem
  all_goals (simp [setNewInstallState, installHeadState] at hmem ; tauto)

/-- Write inventory and decomposition of a rollback uninstall frame
(layer 2). -/
theorem setState_mem_executeUninstall_true (i? : Option Installer) (u : Installer) (p : Bool)
    (σ : String) {n v : String} {S : InstallState}
    (hmem : Event.setState n v S ∈ executeUninstall i? u p true σ) :
    S = InstallState.RollbackUninstall ∨ S = InstallState.None ∨ S = InstallState.Installed ∨
      S = InstallState.Failed ∨
      (S = InstallState.RollbackInstall ∧ ∃ i, i? = some i ∧
        resumesTo (executeUninstall i? u p true σ) (executeInstall i (some u) p true σ)) := by
  cases i? with
  | none =>
    rw [executeUninstall.eq_def] at hmem
    rcases hst : u.uninstallRes.status <;>
      simp [hst, ResultStatus.IsSuccess, ResultStatus.IsReboot, uninstallHeadState,
        setNewInstallState, cleanupAfterUninstall] at hmem <;>
      tauto
  | some i =>
    have hframe : u.uninstallRes.status ≠ ResultStatus.SuccessAndReboot →
        resumesTo (executeUninstall (some i) u p true σ)
          (executeInstall i (some u) p true σ) := by
      intro hne
      rw [executeUninstall.eq_def]
      rcases hst : u.uninstallRes.status <;>
        simp [hst, ResultStatus.IsSuccess, ResultStatus.IsReboot] <;>
        first
          | exact resumesTo_append _ _ (by simp)
          | exact absurd hst hne
    rw [executeUninstall.eq_def] at hmem
    rcases hst : u.uninstallRes.status <;>
      simp [hst, ResultStatus.IsSuccess, ResultStatus.IsReboot, uninstallHeadState,
        setNewInstallState] at hmem
    case Success =>
      rcases hmem with ⟨rfl, rfl, rfl⟩ | hmem
      · exact Or.inl rfl
      · rcases setState_mem_executeInstall_true _ _ _ _ hmem with rfl | rfl | rfl
        · exact Or.inr (Or.inr (Or.inr (Or.inr ⟨rfl, i, rfl, hframe (by simp [hst])⟩)))
        · tauto
        · tauto
    case SuccessAndReboot =>
      rcases hmem with ⟨rfl, rfl, rfl⟩
      exact Or.inl rfl
    case Failed =>
      rcases hmem with ⟨rfl, rfl, rfl⟩ | hmem
      · exact Or.inl rfl
      · rcases setState_mem_executeInstall_true _ _ _ _ hmem with rfl | rfl | rfl
        · exact Or.inr (Or.inr (Or.inr (Or.inr ⟨rfl, i, rfl, hframe (by simp [hst])⟩)))
        · tauto
        · tauto

/-- Write inventory and decomposition of a forward install frame
(layer 3). -/
theorem setState_mem_executeInstall_false (i : Installer) (u : Option Installer) (p : Bool)
    (σ : String) {n v : String} {S : InstallState}
    (hmem : Event.setState n v S ∈ executeInstall i u p false σ) :
    S = InstallState.Installing ∨ S = InstallState.Updating ∨ S = InstallState.Installed ∨
      S = InstallState.Failed ∨ S = InstallState.None ∨
      (∃ u', u = some u' ∧
        ((S = InstallState.RollbackUninstall ∧
            resumesTo (executeInstall i u p false σ) (executeUninstall (some u') i p true σ)) ∨
         (S = InstallState.RollbackInstall ∧
            resumesTo (executeInstall i u p false σ) (executeInstall u' (some i) p true σ)))) := by
  have hhead : S = installHeadState p false →
      S = InstallState.Installing ∨ S = InstallState.Updating := by
    intro hS
    cases p <;> simp [installHeadState] at hS <;> tauto
  rcases hst : (afterValidate i (installActionResult i p false)).status
  case Success =>
    rw [executeInstall.eq_def] at hmem
    simp [hst, ResultStatus.IsSuccess, ResultStatus.IsReboot, setNewInstallState] at hmem
    rcases hmem with ⟨rfl, rfl, rfl⟩ | ⟨rfl, rfl, rfl⟩
    · rcases hhead rfl with h | h <;> tauto
    · tauto
  case SuccessAndReboot =>
    rw [executeInstall.eq_def] at hmem
    simp [hst, ResultStatus.IsSuccess, ResultStatus.IsReboot, setNewInstallState] at hmem
    rcases hmem with ⟨rfl, rfl, rfl⟩
    rcases hhead rfl with h | h <;> tauto
  case Failed =>
    rcases hmc : (p && stringsContains σ missingUpdateScriptMsg)
    case true =>
      rw [executeInstall.eq_def] at hmem
      simp [hst, hmc, ResultStatus.IsSuccess, ResultStatus.IsReboot, setNewInstallState] at hmem
      rcases hmem with ⟨rfl, rfl, rfl⟩ | ⟨rfl, rfl, rfl⟩
      · rcases hhead rfl with h | h <;> tauto
      · tauto
    case false =>
      cases u with
      | none =>
        rw [executeInstall.eq_def] at hmem
        simp [hst, hmc, ResultStatus.IsSuccess, ResultStatus.IsReboot, setNewInstallState] at hmem
        rcases hmem with ⟨rfl, rfl, rfl⟩ | ⟨rfl, rfl, rfl⟩
        · rcases hhead rfl with h | h <;> tauto
        · tauto
      | some u' =>
        have hframe : resumesTo (executeInstall i (some u') p false σ)
            (executeUninstall (some u') i p true σ) := by
          rw [executeInstall.eq_def]
          simp only [hst, hmc, ResultStatus.IsSuccess, ResultStatus.IsReboot,
            Bool.not_false, Bool.false_eq_true, if_false, if_true]
          refine resumesTo_append _ _ (by simp)
        rw [executeInstall.eq_def] at hmem
        simp [hst, hmc, ResultStatus.IsSuccess, ResultStatus.IsReboot, setNewInstallState] at hmem
        rcases hmem with ⟨rfl, rfl, rfl⟩ | hmem
        · rcases hhead rfl with h | h <;> tauto
        · rcases setState_mem_executeUninstall_true _ _ _ _ hmem with
            rfl | rfl | rfl | rfl | ⟨rfl, i₂, hi₂, hres⟩
          · exact Or.inr (Or.inr (Or.inr (Or.inr (Or.inr
              ⟨_, rfl, Or.inl ⟨rfl, hframe⟩⟩))))
          · tauto
          · tauto
          · tauto
          · obtain rfl : i₂ = u' := by injection hi₂.symm
            exact Or.inr (Or.inr (Or.inr (Or.inr (Or.inr
              ⟨_, rfl, Or.inr ⟨rfl, resumesTo_trans hframe hres⟩⟩))))

/-- Write inventory and decomposition of a forward uninstall frame
(layer 4). -/
theorem setState_mem_executeUninstall_false (i? : Option Installer) (u : Installer) (p : Bool)
    (σ : String) {n v : String} {S : InstallState}
    (hmem : Event.setState n v S ∈ executeUninstall i? u p false σ) :
    S = InstallState.Upgrading ∨ S = InstallState.Uninstalling ∨ S = InstallState.Installed ∨
      S = InstallState.Failed ∨ S = InstallState.None ∨
      (∃ i', i? = some i' ∧
        (((S = InstallState.Installing ∨ S = InstallState.Updating) ∧
            resumesTo (executeUninstall i? u p false σ)
              (executeInstall i' (some u) p false σ)) ∨
         (S = InstallState.RollbackUninstall ∧
            resumesTo (executeUninstall i? u p false σ)
              (executeUninstall (some u) i' p true σ)) ∨
         (S = InstallState.RollbackInstall ∧
            resumesTo (executeUninstall i? u p false σ)
              (executeInstall u (some i') p true σ)))) := by
  cases i? with
  | none =>
    rw [executeUninstall.eq_def] at hmem
    rcases hst : u.uninstallRes.status <;>
      simp [hst, ResultStatus.IsSuccess, ResultStatus.IsReboot, uninstallHeadState,
        setNewInstallState, cleanupAfterUninstall] at hmem <;>
      tauto
  | some i' =>
    have hframe : u.uninstallRes.status ≠ ResultStatus.SuccessAndReboot →
        resumesTo (executeUninstall (some i') u p false σ)
          (executeInstall i' (some u) p false σ) := by
      intro hne
      rw [executeUninstall.eq_def]
      rcases hst : u.uninstallRes.status <;>
        simp [hst, ResultStatus.IsSuccess, ResultStatus.IsReboot] <;>
        first
          | exact resumesTo_append _ _ (by simp)
          | exact absurd hst hne
    have hrec : Event.setState n v S ∈ executeInstall i' (some u) p false σ →
        u.uninstallRes.status ≠ ResultStatus.SuccessAndReboot →
        S = InstallState.Upgrading ∨ S = InstallState.Uninstalling ∨
        S = InstallState.Installed ∨ S = InstallState.Failed ∨ S = InstallState.None ∨
        (∃ i₃, (some i' : Option Installer) = some i₃ ∧
          (((S = InstallState.Installing ∨ S = InstallState.Updating) ∧
              resumesTo (executeUninstall (some i') u p false σ)
                (executeInstall i₃ (some u) p false σ)) ∨
           (S = InstallState.RollbackUninstall ∧
              resumesTo (executeUninstall (some i') u p false σ)
                (executeUninstall (some u) i₃ p true σ)) ∨
           (S = InstallState.RollbackInstall ∧
              resumesTo (executeUninstall (some i') u p false σ)
                (executeInstall u (some i₃) p true σ)))) := by
      intro hm hne
      rcases setState_mem_executeInstall_false _ _ _ _ hm with
        rfl | rfl | rfl | rfl | rfl | ⟨u₂, hu₂, hcase⟩
      · exact Or.inr (Or.inr (Or.inr (Or.inr (Or.inr
          ⟨_, rfl, Or.inl ⟨Or.inl rfl, hframe hne⟩⟩))))
      · exact Or.inr (Or.inr (Or.inr (Or.inr (Or.inr
          ⟨_, rfl, Or.inl ⟨Or.inr rfl, hframe hne⟩⟩))))
      · tauto
      · tauto
      · tauto
      · obtain rfl : u₂ = u := by injection hu₂.symm
        rcases hcase with ⟨rfl, hres⟩ | ⟨rfl, hres⟩
        · exact Or.inr (Or.inr (Or.inr (Or.inr (Or.inr
            ⟨_, rfl, Or.inr (Or.inl ⟨rfl,
              resumesTo_trans (hframe hne) hres⟩)⟩))))
        · exact Or.inr (Or.inr (Or.inr (Or.inr (Or.inr
            ⟨_, rfl, Or.inr (Or.inr ⟨rfl,
              resumesTo_trans (hframe hne) hres⟩)⟩))))
    rw [executeUninstall.eq_def] at hmem
    rcases hst : u.uninstallRes.status <;>
      simp [hst, ResultStatus.IsSuccess, ResultStatus.IsReboot, uninstallHeadState,
        setNewInstallState] at hmem
    case Success =>
      rcases hmem with ⟨rfl, rfl, rfl⟩ | hmem
      · exact Or.inl rfl
      · exact hrec hmem (by simp [hst])
    case SuccessAndReboot =>
      rcases hmem with ⟨rfl, rfl, rfl⟩
      exact Or.inl rfl
    case Failed =>
      rcases hmem with ⟨rfl, rfl, rfl⟩ | hmem
      · exact Or.inl rfl
      · exact hrec hmem (by simp [hst])

theorem resume_conclusion {l sub : List Event} (hres : resumesTo l sub)
    (hne : writesOf sub ≠ []) :
    reportsOf sub = reportsOf l ∧ lastWrite sub = lastWrite l :=
  ⟨(reportsOf_of_resumesTo hres).symm, (lastWrite_of_resumesTo hres hne).symm⟩

/-- Resumption after a dispatch into the install path: each in-progress
write of `executeInstall I U? p false σ` is replayed exactly by
re-dispatching from that state with the same inputs. -/
theorem resume_install_dispatch (I : Installer) (U? : Option Installer) (p : Bool) (σ : String)
    {n v : String} {S : InstallState}
    (hS : S = InstallState.Installing ∨ S = InstallState.Updating ∨
      S = InstallState.RollbackInstall ∨ S = InstallState.RollbackUninstall)
    (hmem : Event.setState n v S ∈ executeInstall I U? p false σ) :
    ∃ l', executeConfigurePackage (some I) U? p S σ = some l' ∧
      reportsOf l' = reportsOf (executeInstall I U? p false σ) ∧
      lastWrite l' = lastWrite (executeInstall I U? p false σ) := by
  rcases setState_mem_executeInstall_false _ _ _ _ hmem with
    rfl | rfl | rfl | rfl | rfl | ⟨u', rfl, hcase⟩
  · exact ⟨_, rfl, rfl, rfl⟩
  · exact ⟨_, rfl, rfl, rfl⟩
  · simp at hS
  · simp at hS
  · simp at hS
  · rcases hcase with ⟨rfl, hres⟩ | ⟨rfl, hres⟩
    · obtain ⟨hA, hB⟩ := resume_conclusion hres (writesOf_executeUninstall_ne_nil _ _ _ _ _)
      exact ⟨_, rfl, hA, hB⟩
    · obtain ⟨hA, hB⟩ := resume_conclusion hres (writesOf_executeInstall_ne_nil _ _ _ _ _)
      exact ⟨_, rfl, hA, hB⟩

/-- Resumption after a dispatch into the uninstall path (legacy upgrade or
pure uninstall; the dispatcher takes this branch only when the call is not
an in-place update). -/
theorem resume_uninstall_dispatch (I? : Option Installer) (U : Installer) (σ : String)
    {n v : String} {S : InstallState}
    (hS : S = InstallState.Installing ∨ S = InstallState.Updating ∨
      S = InstallState.RollbackInstall ∨ S = InstallState.RollbackUninstall)
    (hmem : Event.setState n v S ∈ executeUninstall I? U false false σ) :
    ∃ l', executeConfigurePackage I? (some U) false S σ = some l' ∧
      reportsOf l' = reportsOf (executeUninstall I? U false false σ) ∧
      lastWrite l' = lastWrite (executeUninstall I? U false false σ) := by
  rcases setState_mem_executeUninstall_false _ _ _ _ hmem with
    rfl | rfl | rfl | rfl | rfl | ⟨i', rfl, hcase⟩
  · simp at hS
  · simp at hS
  · simp at hS
  · simp at hS
  · simp at hS
  · rcases hcase with ⟨hSiu, hres⟩ | ⟨rfl, hres⟩ | ⟨rfl, hres⟩
    · obtain ⟨hA, hB⟩ := resume_conclusion hres (writesOf_executeInstall_ne_nil _ _ _ _ _)
      rcases hSiu with rfl | rfl
      · exact ⟨_, rfl, hA, hB⟩
      · exact ⟨_, rfl, hA, hB⟩
    · obtain ⟨hA, hB⟩ := resume_conclusion hres (writesOf_executeUninstall_ne_nil _ _ _ _ _)
      exact ⟨_, rfl, hA, hB⟩
    · obtain ⟨hA, hB⟩ := resume_conclusion hres (writesOf_executeInstall_ne_nil _ _ _ _ _)
      exact ⟨_, rfl, hA, hB⟩

/-- Claim C2: for every in-progress persisted state (`Installing`, `Updating`,
`RollbackInstall`, `RollbackUninstall`) that a top-level run writes,
re-invoking the orchestrator from that state with the same target
installer, counterpart installer, in-place flag and accumulated output
stderr reaches the same terminal outcome — the same reporter calls and the
same final persisted write — as the uninterrupted run (action results are
fixed per installer handle, modelling that the remaining invocations
return the same results). -/
theorem C2_idempotent_resumption (inst uninst : Option Installer) (isUpdateInPlace : Bool)
    (st : InstallState) (σ : String) (l : List Event) (S : InstallState) (n v : String)
    (h : executeConfigurePackage inst uninst isUpdateInPlace st σ = some l)
    (hS : S = InstallState.Installing ∨ S = InstallState.Updating ∨
      S = InstallState.RollbackInstall ∨ S = InstallState.RollbackUninstall)
    (hmem : Event.setState n v S ∈ l) :
    ∃ l', executeConfigurePackage inst uninst isUpdateInPlace S σ = some l' ∧
      reportsOf l' = reportsOf l ∧ lastWrite l' = lastWrite l := by
  cases st
  case Installing =>
    cases inst with
    | none => exact absurd h (by simp [executeConfigurePackage])
    | some I =>
      replace h : some (executeInstall I uninst isUpdateInPlace false σ) = some l := h
      obtain rfl := Option.some.inj h
      exact resume_install_dispatch I uninst isUpdateInPlace σ hS hmem
  case Updating =>
    cases inst with
    | none => exact absurd h (by simp [executeConfigurePackage])
    | some I =>
      replace h : some (executeInstall I uninst isUpdateInPlace false σ) = some l := h
      obtain rfl := Option.some.inj h
      exact resume_install_dispatch I uninst isUpdateInPlace σ hS hmem
  case RollbackInstall =>
    cases uninst with
    | none => exact absurd h (by simp [executeConfigurePackage])
    | some U =>
      replace h : some (executeInstall U inst isUpdateInPlace true σ) = some l := h
      obtain rfl := Option.some.inj h
      rcases setState_mem_executeInstall_true _ _ _ _ hmem with rfl | rfl | rfl
      · exact ⟨_, rfl, rfl, rfl⟩
      · simp at hS
      · simp at hS
  case RollbackUninstall =>
    cases inst with
    | none => exact absurd h (by simp [executeConfigurePackage])
    | some I =>
      replace h : some (executeUninstall uninst I isUpdateInPlace true σ) = some l := h
      obtain rfl := Option.some.inj h
      rcases setState_mem_executeUninstall_true _ _ _ _ hmem with
        rfl | rfl | rfl | rfl | ⟨rfl, i₂, rfl, hres⟩
      · exact ⟨_, rfl, rfl, rfl⟩
      · simp at hS
      · simp at hS
      · simp at hS
      · obtain ⟨hA, hB⟩ := resume_conclusion hres (writesOf_executeInstall_ne_nil _ _ _ _ _)
        exact ⟨_, rfl, hA, hB⟩
  all_goals
    cases uninst with
    | some U =>
      cases isUpdateInPlace with
      | false =>
        replace h : some (executeUninstall inst U false false σ) = some l := h
        obtain rfl := Option.some.inj h
        exact resume_uninstall_dispatch inst U σ hS hmem
      | true =>
        cases inst with
        | none => exact absurd h (by simp [executeConfigurePackage])
        | some I =>
          replace h : some (executeInstall I (some U) true false σ) = some l := h
          obtain rfl := Option.some.inj h
          exact resume_install_dispatch I (some U) true σ hS hmem
    | none =>
      cases inst with
      | none => exact absurd h (by simp [executeConfigurePackage])
      | some I =>
        replace h : some (executeInstall I none isUpdateInPlace false σ) = some l := h
        obtain rfl := Option.some.inj h
        exact resume_install_dispatch I none isUpdateInPlace σ hS hmem

/-- Witness for C2 at a concrete input: a failed upgrade whose run writes
`RollbackUninstall`; resuming from `RollbackUninstall` reproduces the same
reports and final write. -/
theorem C2_witness :
    ∃ l', executeConfigurePackage
        (some (mkInstaller "pkgA" "2.0"
          ResultStatus.Failed ResultStatus.Failed ResultStatus.Success ResultStatus.Success))
        (some (mkInstaller "pkgA" "1.0"
          ResultStatus.Success ResultStatus.Success ResultStatus.Success ResultStatus.Success))
        false InstallState.RollbackUninstall "" = some l' ∧
      reportsOf l' = reportsOf (executeUninstall
        (some (mkInstaller "pkgA" "2.0"
          ResultStatus.Failed ResultStatus.Failed ResultStatus.Success ResultStatus.Success))
        (mkInstaller "pkgA" "1.0"
          ResultStatus.Success ResultStatus.Success ResultStatus.Success ResultStatus.Success)
        false false "") ∧
      lastWrite l' = lastWrite (executeUninstall
        (some (mkInstaller "pkgA" "2.0"
          ResultStatus.Failed ResultStatus.Failed ResultStatus.Success ResultStatus.Success))
        (mkInstaller "pkgA" "1.0"
          ResultStatus.Success ResultStatus.Success ResultStatus.Success ResultStatus.Success)
        false false "") :=
  C2_idempotent_resumption
    (some (mkInstaller "pkgA" "2.0"
      ResultStatus.Failed ResultStatus.Failed ResultStatus.Success ResultStatus.Success))
    (some (mkInstaller "pkgA" "1.0"
      ResultStatus.Success ResultStatus.Success ResultStatus.Success ResultStatus.Success))
    false InstallState.None "" _ InstallState.RollbackUninstall "pkgA" "2.0" rfl
    (by simp)
    (by simp [executeConfigurePackage, executeInstall, executeUninstall, installHead,
      uninstallHead, installHeadState, installAction, installActionResult, afterValidate,
      setNewInstallState, cleanupAfterUninstall, maybeCleanup, uninstallHeadState, mkInstaller,
      mkResult, stringsContains_nil, ResultStatus.IsSuccess, ResultStatus.IsReboot])

/-! ## Claim C3: the entry dispatch table -/

@[simp] theorem getLast?_cons_cons_cp {α : Type _} (a b : α) (l : List α) :
    (a :: b :: l).getLast? = (b :: l).getLast? := rfl

/-- The first installer action of any uninstall sub-procedure run is
`Uninstall` on the version held by its `uninst` parameter. -/
theorem actionsOf_executeUninstall_head (i : Option Installer) (u : Installer) (p r : Bool)
    (σ : String) :
    (actionsOf (executeUninstall i u p r σ)).head? =
      some (u.packageName, u.version, ActionKind.uninstall) := by
  rw [executeUninstall.eq_def, uninstallHead]
  simp [setNewInstallState]

/-- The first installer action of any install sub-procedure run is the
install/update action on the version held by its `inst` parameter. -/
theorem actionsOf_executeInstall_head (i : Installer) (u : Option Installer) (p r : Bool)
    (σ : String) :
    (actionsOf (executeInstall i u p r σ)).head? =
      some (i.packageName, i.version, installAction p r) := by
  rw [executeInstall.eq_def, installHead]
  simp [setNewInstallState]

/-- The first repository write of any install sub-procedure run. -/
theorem writesOf_executeInstall_head (i : Installer) (u : Option Installer) (p r : Bool)
    (σ : String) :
    (writesOf (executeInstall i u p r σ)).head? =
      some (i.packageName, i.version, installHeadState p r) := by
  rw [executeInstall.eq_def, installHead]
  simp [setNewInstallState]

/-- Claim C3, as stated, is false: on persisted state `RollbackUninstall` the
dispatcher (line 51) passes the top-level handles to `executeUninstall`
swapped, so the version being removed is the *target* and the version
reinstalled afterwards is the *counterpart* — not, as the claim says per
§4.3's role reading, the other way around.  Concrete input: target
pkgA/2.0, counterpart pkgA/1.0, state `RollbackUninstall`: the run's first
action is `Uninstall` of 2.0 (the target), it invokes `Install` of 1.0
(the counterpart) and never `Install` of 2.0. -/
theorem C3_counterexample :
    ∃ l, executeConfigurePackage
        (some (mkInstaller "pkgA" "2.0"
          ResultStatus.Failed ResultStatus.Failed ResultStatus.Success ResultStatus.Success))
        (some (mkInstaller "pkgA" "1.0"
          ResultStatus.Success ResultStatus.Success ResultStatus.Success ResultStatus.Success))
        false InstallState.RollbackUninstall "" = some l ∧
      (actionsOf l).head? = some ("pkgA", "2.0", ActionKind.uninstall) ∧
      ("pkgA", "1.0", ActionKind.install) ∈ actionsOf l ∧
      ("pkgA", "2.0", ActionKind.install) ∉ actionsOf l ∧
      ("pkgA", "1.0", ActionKind.uninstall) ∉ actionsOf l ∧
      ("2.0" : String) ≠ "1.0" := by
  refine ⟨_, rfl, ?_, ?_, ?_, ?_, by decide⟩ <;>
    simp [executeInstall, executeUninstall, installHead, uninstallHead, installHeadState,
      installAction, installActionResult, afterValidate, setNewInstallState,
      cleanupAfterUninstall, maybeCleanup, uninstallHeadState, mkInstaller, mkResult,
      stringsContains_nil, ResultStatus.IsSuccess, ResultStatus.IsReboot, actionsOf]

/-- Claim C3 (amended): the dispatcher runs exactly one sub-procedure chosen only
from the persisted state: `Installing`/`Updating` → install path on the
target with rollback false; `RollbackInstall` → install path with roles
swapped (installing the counterpart) and rollback true; `RollbackUninstall`
→ uninstall path with rollback true, where the version being removed is the
*target* and the version to reinstall afterwards is the *counterpart*; any
other state → uninstall path with rollback false (remove the counterpart,
then install the target) when a counterpart exists and the call is not an
in-place update, otherwise install path on the target with rollback
false. -/
theorem C3_dispatch_table (inst uninst : Option Installer) (p : Bool) (st : InstallState)
    (σ : String) :
    ((st = InstallState.Installing ∨ st = InstallState.Updating) →
      executeConfigurePackage inst uninst p st σ =
        inst.map fun i => executeInstall i uninst p false σ) ∧
    (st = InstallState.RollbackInstall →
      executeConfigurePackage inst uninst p st σ =
        uninst.map fun u => executeInstall u inst p true σ) ∧
    (st = InstallState.RollbackUninstall →
      (executeConfigurePackage inst uninst p st σ =
        inst.map fun i => executeUninstall uninst i p true σ) ∧
      ∀ i, inst = some i → ∀ l, executeConfigurePackage inst uninst p st σ = some l →
        (actionsOf l).head? = some (i.packageName, i.version, ActionKind.uninstall)) ∧
    (st ≠ InstallState.Installing → st ≠ InstallState.Updating →
      st ≠ InstallState.RollbackInstall → st ≠ InstallState.RollbackUninstall →
      (∀ u, uninst = some u → p = false →
        executeConfigurePackage inst uninst p st σ =
          some (executeUninstall inst u p false σ)) ∧
      ((uninst = none ∨ p = true) →
        executeConfigurePackage inst uninst p st σ =
          inst.map fun i => executeInstall i uninst p false σ)) := by
  refine ⟨?_, ?_, ?_, ?_⟩
  · rintro (rfl | rfl) <;> rfl
  · rintro rfl
    rfl
  · rintro rfl
    refine ⟨rfl, ?_⟩
    rintro i rfl l hl
    replace hl : some (executeUninstall uninst i p true σ) = some l := hl
    obtain rfl := Option.some.inj hl
    exact actionsOf_executeUninstall_head _ _ _ _ _
  · intro h1 h2 h3 h4
    constructor
    · rintro u rfl rfl
      cases st <;> first
        | rfl
        | exact absurd rfl h1
        | exact absurd rfl h2
        | exact absurd rfl h3
        | exact absurd rfl h4
    · rintro (rfl | rfl) <;>
        cases st <;> first
          | rfl
          | (cases inst <;> cases uninst <;> rfl)
          | exact absurd rfl h1
          | exact absurd rfl h2
          | exact absurd rfl h3
          | exact absurd rfl h4

/-- Witness for the amended C3: the `RollbackUninstall` dispatch at a
concrete input removes the target pkgA/2.0. -/
theorem C3_witness :
    executeConfigurePackage
        (some (mkInstaller "pkgA" "2.0"
          ResultStatus.Failed ResultStatus.Failed ResultStatus.Success ResultStatus.Success))
        (some (mkInstaller "pkgA" "1.0"
          ResultStatus.Success ResultStatus.Success ResultStatus.Success ResultStatus.Success))
        false InstallState.RollbackUninstall "" =
      some (executeUninstall
        (some (mkInstaller "pkgA" "1.0"
          ResultStatus.Success ResultStatus.Success ResultStatus.Success ResultStatus.Success))
        (mkInstaller "pkgA" "2.0"
          ResultStatus.Failed ResultStatus.Failed ResultStatus.Success ResultStatus.Success)
        false true "") ∧
    (actionsOf (executeUninstall
        (some (mkInstaller "pkgA" "1.0"
          ResultStatus.Success ResultStatus.Success ResultStatus.Success ResultStatus.Success))
        (mkInstaller "pkgA" "2.0"
          ResultStatus.Failed ResultStatus.Failed ResultStatus.Success ResultStatus.Success)
        false true "")).head? = some ("pkgA", "2.0", ActionKind.uninstall) := by
  obtain ⟨-, -, h3, -⟩ := C3_dispatch_table
    (some (mkInstaller "pkgA" "2.0"
      ResultStatus.Failed ResultStatus.Failed ResultStatus.Success ResultStatus.Success))
    (some (mkInstaller "pkgA" "1.0"
      ResultStatus.Success ResultStatus.Success ResultStatus.Success ResultStatus.Success))
    false InstallState.RollbackUninstall ""
  obtain ⟨heq, hhead⟩ := h3 rfl
  refine ⟨heq, ?_⟩
  have := hhead _ rfl _ heq
  simpa [mkInstaller, mkResult] using this

/-! ## Claim C4: rollback restores the counterpart -/

/-- Claim C4, as stated, is false: the claim's hypotheses (validate-adjusted
non-reboot failure, counterpart present, not already a rollback, no
missing-update-script case) do not suffice — when the counterpart's own
reinstall fails, the run ends with the counterpart persisted `Failed`, not
`Installed`.  Concrete input: target pkgA/2.0 whose install fails and
counterpart pkgA/1.0 whose reinstall also fails. -/
theorem C4_counterexample :
    (afterValidate
        (mkInstaller "pkgA" "2.0"
          ResultStatus.Failed ResultStatus.Failed ResultStatus.Success ResultStatus.Success)
        (installActionResult
          (mkInstaller "pkgA" "2.0"
            ResultStatus.Failed ResultStatus.Failed ResultStatus.Success ResultStatus.Success)
          false false)).status = ResultStatus.Failed ∧
    (false && stringsContains "" missingUpdateScriptMsg) = false ∧
    reportsOf (executeInstall
        (mkInstaller "pkgA" "2.0"
          ResultStatus.Failed ResultStatus.Failed ResultStatus.Success ResultStatus.Success)
        (some (mkInstaller "pkgA" "1.0"
          ResultStatus.Failed ResultStatus.Failed ResultStatus.Success ResultStatus.Success))
        false false "") = [Report.failed] ∧
    lastWrite (executeInstall
        (mkInstaller "pkgA" "2.0"
          ResultStatus.Failed ResultStatus.Failed ResultStatus.Success ResultStatus.Success)
        (some (mkInstaller "pkgA" "1.0"
          ResultStatus.Failed ResultStatus.Failed ResultStatus.Success ResultStatus.Success))
        false false "") = some ("pkgA", "1.0", InstallState.Failed) ∧
    InstallState.Failed ≠ InstallState.Installed := by
  refine ⟨rfl, rfl, ?_, ?_, by decide⟩ <;>
    simp [executeInstall, executeUninstall, installHead, uninstallHead, installHeadState,
      installAction, installActionResult, afterValidate, setNewInstallState,
      cleanupAfterUninstall, maybeCleanup, uninstallHeadState, mkInstaller, mkResult,
      stringsContains_nil, ResultStatus.IsSuccess, ResultStatus.IsReboot, reportsOf,
      writesOf, lastWrite]

/-- Claim C4 (amended): for every install sub-procedure run whose
validate-adjusted outcome is a non-reboot failure, with a counterpart,
not already a rollback and with the in-place missing-update-script case
not applying, *and whose rollback chain itself completes* — the target's
rollback uninstall does not report reboot-pending and the counterpart's
reinstall (validate-adjusted) succeeds without reboot — the run ends with
the counterpart's persisted state set to `Installed` and the outcome
reported failed. -/
theorem C4_rollback_restores_counterpart (i u : Installer) (p : Bool) (σ : String)
    (hfail : (afterValidate i (installActionResult i p false)).status = ResultStatus.Failed)
    (hnomiss : (p && stringsContains σ missingUpdateScriptMsg) = false)
    (hunin : i.uninstallRes.status ≠ ResultStatus.SuccessAndReboot)
    (hre : (afterValidate u (installActionResult u p true)).status = ResultStatus.Success) :
    reportsOf (executeInstall i (some u) p false σ) = [Report.failed] ∧
    lastWrite (executeInstall i (some u) p false σ) =
      some (u.packageName, u.version, InstallState.Installed) := by
  have hLI2 : executeInstall u (some i) p true σ =
      installHead u p true ++ (cleanupAfterUninstall i ++
        (setNewInstallState u InstallState.Installed ++ [Event.report Report.failed])) := by
    rw [executeInstall.eq_def]
    simp [hre, ResultStatus.IsSuccess, ResultStatus.IsReboot, maybeCleanup]
  have hLU : executeUninstall (some u) i p true σ =
      uninstallHead (some u) i true ++ executeInstall u (some i) p true σ := by
    rw [executeUninstall.eq_def]
    rcases hst : i.uninstallRes.status <;>
      simp [hst, ResultStatus.IsSuccess, ResultStatus.IsReboot]
    exact absurd hst hunin
  have hLI : executeInstall i (some u) p false σ =
      installHead i p false ++ executeUninstall (some u) i p true σ := by
    rw [executeInstall.eq_def]
    simp [hfail, hnomiss, ResultStatus.IsSuccess, ResultStatus.IsReboot]
  rw [hLI, hLU, hLI2]
  constructor
  · simp
  · simp [lastWrite, setNewInstallState, cleanupAfterUninstall]

/-- Witness for the amended C4 at a concrete input: failing target
pkgA/2.0, counterpart pkgA/1.0 restored successfully. -/
theorem C4_witness :
    reportsOf (executeInstall
        (mkInstaller "pkgA" "2.0"
          ResultStatus.Failed ResultStatus.Failed ResultStatus.Success ResultStatus.Success)
        (some (mkInstaller "pkgA" "1.0"
          ResultStatus.Success ResultStatus.Success ResultStatus.Success ResultStatus.Success))
        false false "") = [Report.failed] ∧
    lastWrite (executeInstall
        (mkInstaller "pkgA" "2.0"
          ResultStatus.Failed ResultStatus.Failed ResultStatus.Success ResultStatus.Success)
        (some (mkInstaller "pkgA" "1.0"
          ResultStatus.Success ResultStatus.Success ResultStatus.Success ResultStatus.Success))
        false false "") =
      some ((mkInstaller "pkgA" "1.0"
          ResultStatus.Success ResultStatus.Success ResultStatus.Success
          ResultStatus.Success).packageName,
        (mkInstaller "pkgA" "1.0"
          ResultStatus.Success ResultStatus.Success ResultStatus.Success
          ResultStatus.Success).version, InstallState.Installed) :=
  C4_rollback_restores_counterpart
    (mkInstaller "pkgA" "2.0"
      ResultStatus.Failed ResultStatus.Failed ResultStatus.Success ResultStatus.Success)
    (mkInstaller "pkgA" "1.0"
      ResultStatus.Success ResultStatus.Success ResultStatus.Success ResultStatus.Success)
    false "" rfl rfl (by decide) rfl

/-! ## Claim C5: the missing-update-script reclassification -/

/-- Claim C5: for every install sub-procedure run with the in-place flag set
whose validate-adjusted outcome is a non-reboot failure and whose
accumulated output stderr contains "missing update script": the persisted
state is set to `Installed`, the outcome is reported failed, no rollback
happens (no `Uninstall` invocation and no `RollbackUninstall` write) and
no `Failed` write occurs — regardless of the exit code (the quantified
installer carries arbitrary exit codes) and of the rollback flag. -/
theorem C5_missing_update_script (i : Installer) (u : Option Installer) (r : Bool) (σ : String)
    (hfail : (afterValidate i (installActionResult i true r)).status = ResultStatus.Failed)
    (hmiss : stringsContains σ missingUpdateScriptMsg = true) :
    reportsOf (executeInstall i u true r σ) = [Report.failed] ∧
    lastWrite (executeInstall i u true r σ) =
      some (i.packageName, i.version, InstallState.Installed) ∧
    uninstallInvocations (executeInstall i u true r σ) = 0 ∧
    (∀ n v, (n, v, InstallState.Failed) ∉ writesOf (executeInstall i u true r σ)) ∧
    (∀ n v, (n, v, InstallState.RollbackUninstall) ∉ writesOf (executeInstall i u true r σ)) := by
  have hLI : executeInstall i u true r σ =
      installHead i true r ++ (setNewInstallState i InstallState.Installed ++
        [Event.report Report.failed]) := by
    rw [executeInstall.eq_def]
    simp [hfail, hmiss, ResultStatus.IsSuccess, ResultStatus.IsReboot]
  rw [hLI]
  refine ⟨by simp, by simp [lastWrite, setNewInstallState], by simp, ?_, ?_⟩
  · intro n v
    cases r <;> simp [setNewInstallState, installHeadState]
  · intro n v
    cases r <;> simp [setNewInstallState, installHeadState]

/-- Witness for C5 at a concrete input: an in-place update whose `Update`
action fails while the accumulated stderr contains the pattern. -/
theorem C5_witness :
    reportsOf (executeInstall
        (mkInstaller "pkgA" "1.0"
          ResultStatus.Success ResultStatus.Failed ResultStatus.Success ResultStatus.Success)
        none true false missingUpdateScriptMsg) = [Report.failed] ∧
    lastWrite (executeInstall
        (mkInstaller "pkgA" "1.0"
          ResultStatus.Success ResultStatus.Failed ResultStatus.Success ResultStatus.Success)
        none true false missingUpdateScriptMsg) =
      some ((mkInstaller "pkgA" "1.0"
          ResultStatus.Success ResultStatus.Failed ResultStatus.Success
          ResultStatus.Success).packageName,
        (mkInstaller "pkgA" "1.0"
          ResultStatus.Success ResultStatus.Failed ResultStatus.Success
          ResultStatus.Success).version, InstallState.Installed) ∧
    uninstallInvocations (executeInstall
        (mkInstaller "pkgA" "1.0"
          ResultStatus.Success ResultStatus.Failed ResultStatus.Success ResultStatus.Success)
        none true false missingUpdateScriptMsg) = 0 ∧
    (∀ n v, (n, v, InstallState.Failed) ∉ writesOf (executeInstall
        (mkInstaller "pkgA" "1.0"
          ResultStatus.Success ResultStatus.Failed ResultStatus.Success ResultStatus.Success)
        none true false missingUpdateScriptMsg)) ∧
    (∀ n v, (n, v, InstallState.RollbackUninstall) ∉ writesOf (executeInstall
        (mkInstaller "pkgA" "1.0"
          ResultStatus.Success ResultStatus.Failed ResultStatus.Success ResultStatus.Success)
        none true false missingUpdateScriptMsg)) :=
  C5_missing_update_script
    (mkInstaller "pkgA" "1.0"
      ResultStatus.Success ResultStatus.Failed ResultStatus.Success ResultStatus.Success)
    none false missingUpdateScriptMsg rfl stringsContains_self

/-! ## Claim C6: head state and head action of the install path -/

/-- Claim C6, as stated, is false: the claim says the action invoked on the
target is `Update` whenever the in-place flag is set, but when the rollback
flag is also set the source (lines 88–90) invokes `Install`.  Concrete
input: in-place rollback install — the first (and only install-like)
action is `Install`, not `Update`. -/
theorem C6_counterexample :
    (actionsOf (executeInstall
        (mkInstaller "pkgA" "1.0"
          ResultStatus.Success ResultStatus.Success ResultStatus.Success ResultStatus.Success)
        none true true "")).head? = some ("pkgA", "1.0", ActionKind.install) ∧
    ActionKind.install ≠ ActionKind.update := by
  constructor
  · rw [actionsOf_executeInstall_head]
    simp [mkInstaller, mkResult, installAction]
  · decide

/-- Claim C6 (amended): for every install sub-procedure run, the first persisted
state is `RollbackInstall` if rolling back, else `Updating` if in-place,
else `Installing` (written before the action), and the action invoked on
the target is `Install` when rolling back, else `Update` if in-place, else
`Install`. -/
theorem C6_head_state_and_action (i : Installer) (u : Option Installer) (p r : Bool)
    (σ : String) :
    (writesOf (executeInstall i u p r σ)).head? =
      some (i.packageName, i.version,
        if r then InstallState.RollbackInstall
        else if p then InstallState.Updating else InstallState.Installing) ∧
    (actionsOf (executeInstall i u p r σ)).head? =
      some (i.packageName, i.version,
        if r then ActionKind.install
        else if p then ActionKind.update else ActionKind.install) :=
  ⟨writesOf_executeInstall_head i u p r σ, actionsOf_executeInstall_head i u p r σ⟩

/-! ## Claim C8: pure uninstall interrupted by reboot -/

/-- Claim C8, as stated, is false: it asserts for *every* uninstall sub-procedure
run with no counterpart and a reboot-pending `Uninstall` result that the
persisted state remains `Uninstalling`; but on the rollback path the state
written before the action is `RollbackUninstall` (source lines 164–165).
Concrete input: rollback uninstall with no version to reinstall whose
`Uninstall` reports reboot-pending. -/
theorem C8_counterexample :
    executeUninstall none
        (mkInstaller "pkgA" "1.0"
          ResultStatus.Success ResultStatus.Success ResultStatus.SuccessAndReboot
          ResultStatus.Success) false true "" =
      [Event.setState "pkgA" "1.0" InstallState.RollbackUninstall,
       Event.action "pkgA" "1.0" ActionKind.uninstall,
       Event.report Report.succeededWithReboot] ∧
    InstallState.RollbackUninstall ≠ InstallState.Uninstalling := by
  constructor
  · rw [executeUninstall.eq_def]
    simp [mkInstaller, mkResult, ResultStatus.IsSuccess, ResultStatus.IsReboot,
      uninstallHead, uninstallHeadState, setNewInstallState]
  · decide

/-- Claim C8 (amended): for every non-rollback uninstall sub-procedure run with
no counterpart whose `Uninstall` action returns reboot-pending, the
outcome is reported success-with-reboot, the only write of the run is the
pre-action `Uninstalling` (so the persisted state remains `Uninstalling`),
and cleanup (`RemovePackage`) is not invoked. -/
theorem C8_pure_uninstall_reboot (u : Installer) (p : Bool) (σ : String)
    (hreb : u.uninstallRes.status = ResultStatus.SuccessAndReboot) :
    reportsOf (executeUninstall none u p false σ) = [Report.succeededWithReboot] ∧
    writesOf (executeUninstall none u p false σ) =
      [(u.packageName, u.version, InstallState.Uninstalling)] ∧
    cleanupsOf (executeUninstall none u p false σ) = [] := by
  have hLU : executeUninstall none u p false σ =
      uninstallHead none u false ++ [Event.report Report.succeededWithReboot] := by
    rw [executeUninstall.eq_def]
    simp [hreb, ResultStatus.IsSuccess, ResultStatus.IsReboot]
  rw [hLU]
  exact ⟨by simp, by simp [uninstallHeadState], by simp⟩

/-- Witness for the amended C8 at a concrete input. -/
theorem C8_witness :
    reportsOf (executeUninstall none
        (mkInstaller "pkgA" "1.0"
          ResultStatus.Success ResultStatus.Success ResultStatus.SuccessAndReboot
          ResultStatus.Success) false false "") = [Report.succeededWithReboot] ∧
    writesOf (executeUninstall none
        (mkInstaller "pkgA" "1.0"
          ResultStatus.Success ResultStatus.Success ResultStatus.SuccessAndReboot
          ResultStatus.Success) false false "") =
      [((mkInstaller "pkgA" "1.0"
          ResultStatus.Success ResultStatus.Success ResultStatus.SuccessAndReboot
          ResultStatus.Success).packageName,
        (mkInstaller "pkgA" "1.0"
          ResultStatus.Success ResultStatus.Success ResultStatus.SuccessAndReboot
          ResultStatus.Success).version, InstallState.Uninstalling)] ∧
    cleanupsOf (executeUninstall none
        (mkInstaller "pkgA" "1.0"
          ResultStatus.Success ResultStatus.Success ResultStatus.SuccessAndReboot
          ResultStatus.Success) false false "") = [] :=
  C8_pure_uninstall_reboot
    (mkInstaller "pkgA" "1.0"
      ResultStatus.Success ResultStatus.Success ResultStatus.SuccessAndReboot
      ResultStatus.Success) false "" rfl

/-! ## Claim C10: the reclassification guard reads the accumulated stderr
and is not gated on rollback -/

/-- Claim C10 (implicit): the missing-update-script reclassification is guarded
only by the in-place flag and the substring test on the *accumulated*
plugin output stderr — not the stderr of the action result just produced —
and is not gated on rollback=false.  Witnessing run: a rollback in-place
install whose `Install` action fails with *empty* result stderr while the
accumulated output stderr contains the pattern: the orchestrator persists
`Installed` for the rollback target, reports failure, and never writes
`Failed`. -/
theorem C10_reclassification_in_rollback :
    stringsContains (mkInstaller "pkgA" "2.0"
        ResultStatus.Failed ResultStatus.Failed ResultStatus.Success
        ResultStatus.Success).installRes.stderr missingUpdateScriptMsg = false ∧
    executeInstall (mkInstaller "pkgA" "2.0"
        ResultStatus.Failed ResultStatus.Failed ResultStatus.Success
        ResultStatus.Success) none true true missingUpdateScriptMsg =
      [Event.setState "pkgA" "2.0" InstallState.RollbackInstall,
       Event.action "pkgA" "2.0" ActionKind.install,
       Event.setState "pkgA" "2.0" InstallState.Installed,
       Event.report Report.failed] ∧
    lastWrite (executeInstall (mkInstaller "pkgA" "2.0"
        ResultStatus.Failed ResultStatus.Failed ResultStatus.Success
        ResultStatus.Success) none true true missingUpdateScriptMsg) =
      some ("pkgA", "2.0", InstallState.Installed) ∧
    reportsOf (executeInstall (mkInstaller "pkgA" "2.0"
        ResultStatus.Failed ResultStatus.Failed ResultStatus.Success
        ResultStatus.Success) none true true missingUpdateScriptMsg) = [Report.failed] ∧
    (∀ n v, (n, v, InstallState.Failed) ∉ writesOf (executeInstall (mkInstaller "pkgA" "2.0"
        ResultStatus.Failed ResultStatus.Failed ResultStatus.Success
        ResultStatus.Success) none true true missingUpdateScriptMsg)) := by
  refine ⟨stringsContains_nil, ?_, ?_, ?_, ?_⟩ <;>
    simp [executeInstall, installHead, installHeadState, installAction, installActionResult,
      afterValidate, setNewInstallState, mkInstaller, mkResult, stringsContains_self,
      ResultStatus.IsSuccess, ResultStatus.IsReboot, lastWrite, writesOf, reportsOf]

end ConfigurePackage
